import Mathlib

/-!
Shallow embedding of the AI-Meeting-Minutes-To-Task-Converter repository
(TypeScript/Express/React) in Lean 4, for checking its natural-language
specification against the code.

Embedded parts:
* `src/shared/schema.ts` — the task table shape, `insertTaskSchema`,
  `updateTaskSchema` and `extractedTaskSchema` (zod validation, modelled as
  `Option`-returning parsers over typed raw records);
* `MemStorage` (in the in-repo `storage.ts` revision bundled with
  `routes.ts`) and `DatabaseStorage` (`src/server/storage.ts`) — both
  modelled over a common store state: a list of task rows plus the next
  serial id;
* the Express route handlers of `routes.ts`: the transcript guard of
  `POST /api/extract-tasks`, the per-item create loop of `POST /api/tasks`,
  the local-time augmentation of `GET /api/tasks`, and the status mapping of
  `PUT /api/tasks/:id` / `DELETE /api/tasks/:id`;
* the client review modal `task-review-modal.tsx`: `removeTask`,
  `addNewTask`, `handleApproveAll`.

Timestamps are modelled as `Int` milliseconds since the Unix epoch
(JavaScript `Date` values); `toISOString` is the JS builtin
`Date.prototype.toISOString`, reimplemented over that representation.
-/

namespace MMTC

/-- A persisted task row (`tasks` table in `src/shared/schema.ts`). -/
structure Task where
  id : Nat
  userId : Nat
  description : String
  assignee : String
  dueDateUtc : Int
  dueDateOriginal : String
  priority : String
  completed : Bool
  createdAt : Int
deriving DecidableEq, Repr

/-- The fields accepted by `insertTaskSchema` (id and createdAt omitted). -/
structure InsertTask where
  userId : Nat
  description : String
  assignee : String
  dueDateUtc : Int
  dueDateOriginal : String
  priority : String
  completed : Bool
deriving DecidableEq, Repr

/-- The partial update accepted by `updateTaskSchema`
(`createInsertSchema(tasks).omit({id,userId,createdAt}).partial()`):
every field optional, `userId` not updatable. -/
structure UpdateTask where
  description : Option String := none
  assignee : Option String := none
  dueDateUtc : Option Int := none
  dueDateOriginal : Option String := none
  priority : Option String := none
  completed : Option Bool := none
deriving DecidableEq, Repr

/-- JS object spread `{ ...task, ...updates }`: present update fields
override, absent ones keep the stored value. `id`, `userId`, `createdAt`
cannot appear in `updates` (stripped by `updateTaskSchema`). -/
def applyUpdates (t : Task) (u : UpdateTask) : Task :=
  { t with
    description := u.description.getD t.description
    assignee := u.assignee.getD t.assignee
    dueDateUtc := u.dueDateUtc.getD t.dueDateUtc
    dueDateOriginal := u.dueDateOriginal.getD t.dueDateOriginal
    priority := u.priority.getD t.priority
    completed := u.completed.getD t.completed }

/-- Common state for both storage implementations: the task rows in
insertion order (the `Map<number, Task>` of `MemStorage` iterates in
insertion order; the SQL table of `DatabaseStorage` holds the same rows)
plus the next serial id. -/
structure StoreState where
  rows : List Task
  nextId : Nat
deriving DecidableEq, Repr

def emptyStore : StoreState := { rows := [], nextId := 1 }

/-- Embeds `MemStorage.getTasksByUserId`: filter the map values by owner. -/
def memGetTasksByUserId (s : StoreState) (userId : Nat) : List Task :=
  s.rows.filter (fun t => t.userId == userId)

/-- Embeds `DatabaseStorage.getTasksByUserId`:
`select from tasks where tasks.userId = userId`. -/
def dbGetTasksByUserId (s : StoreState) (userId : Nat) : List Task :=
  s.rows.filter (fun t => t.userId == userId)

/-- Embeds `MemStorage.createTask`: assign `currentTaskId++`, stamp `createdAt`
with the current time, insert. Returns the created task and the new state. -/
def memCreateTask (now : Int) (s : StoreState) (ins : InsertTask) :
    Task × StoreState :=
  let task : Task :=
    { id := s.nextId
      userId := ins.userId
      description := ins.description
      assignee := ins.assignee
      dueDateUtc := ins.dueDateUtc
      dueDateOriginal := ins.dueDateOriginal
      priority := ins.priority
      completed := ins.completed
      createdAt := now }
  (task, { rows := s.rows ++ [task], nextId := s.nextId + 1 })

/-- Embeds `DatabaseStorage.createTask`: `insert into tasks ... returning` — the
serial column assigns the next id and `created_at` defaults to now. -/
def dbCreateTask (now : Int) (s : StoreState) (ins : InsertTask) :
    Task × StoreState :=
  memCreateTask now s ins

/-- Embeds `MemStorage.updateTask`: look the task up by id; if absent or owned by
a different user, return `undefined` and leave the store unchanged;
otherwise store and return the spread-updated task. -/
def memUpdateTask (s : StoreState) (id userId : Nat) (updates : UpdateTask) :
    Option Task × StoreState :=
  match s.rows.find? (fun t => t.id == id) with
  | none => (none, s)
  | some task =>
    if task.userId ≠ userId then (none, s)
    else
      let updatedTask := applyUpdates task updates
      (some updatedTask,
       { s with rows := s.rows.map (fun r => if r.id == id then updatedTask else r) })

/-- Embeds `DatabaseStorage.updateTask`:
`update tasks set updates where tasks.id = id returning` — the row is
updated filtered by id only; the ownership check happens afterwards on the
returned row and only filters the return value. -/
def dbUpdateTask (s : StoreState) (id userId : Nat) (updates : UpdateTask) :
    Option Task × StoreState :=
  let newRows := s.rows.map (fun r => if r.id == id then applyUpdates r updates else r)
  let returned := ((s.rows.filter (fun r => r.id == id)).map
    (fun r => applyUpdates r updates)).head?
  let result := match returned with
    | some task => if task.userId == userId then some task else none
    | none => none
  (result, { s with rows := newRows })

/-- Embeds `MemStorage.deleteTask`: look up by id; absent or foreign-owned rows
are untouched and `false` is returned; otherwise the row is removed. -/
def memDeleteTask (s : StoreState) (id userId : Nat) : Bool × StoreState :=
  match s.rows.find? (fun t => t.id == id) with
  | none => (false, s)
  | some task =>
    if task.userId ≠ userId then (false, s)
    else (true, { s with rows := s.rows.filter (fun t => !(t.id == id)) })

/-- Embeds `DatabaseStorage.deleteTask`:
`delete from tasks where tasks.id = id returning` — the row is deleted
filtered by id only; the result is `result.length > 0 && result[0].userId
=== userId`, an ownership check applied only to the boolean result. -/
def dbDeleteTask (s : StoreState) (id userId : Nat) : Bool × StoreState :=
  let deleted := s.rows.filter (fun r => r.id == id)
  let result := match deleted.head? with
    | some task => task.userId == userId
    | none => false
  (result, { s with rows := s.rows.filter (fun r => !(r.id == id)) })

/-- Embeds `PUT /api/tasks/:id`: HTTP status derived from the storage result —
`404 { error: "Task not found" }` when `updateTask` returned `undefined`,
200 with the task otherwise. -/
def putTaskStatus (result : Option Task) : Nat :=
  match result with
  | some _ => 200
  | none => 404

/-- Embeds `DELETE /api/tasks/:id`: `404` when `deleteTask` returned `false`,
204 (no content) otherwise. -/
def deleteTaskStatus (deleted : Bool) : Nat :=
  if deleted then 204 else 404

/-- An extracted-task candidate as held by the client working set
(`ExtractedTask` in `src/shared/schema.ts`): after validation `priority`
is one of "P1".."P4". -/
structure ExtractedTask where
  task_description : String
  assignee : String
  due_date : String
  priority : String
deriving DecidableEq, Repr

/-- A raw JSON task-like record before zod validation: each expected key
may be present (as a string) or absent. -/
structure RawItem where
  task_description : Option String := none
  assignee : Option String := none
  due_date : Option String := none
  priority : Option String := none
deriving DecidableEq, Repr

def priorityValues : List String := ["P1", "P2", "P3", "P4"]

/-- Embeds `extractedTaskSchema.parse` (`src/shared/schema.ts`): all of
`task_description`, `assignee`, `due_date` required strings; `priority`
must lie in the four-value enum when present and defaults to "P3" when
absent. Failure (zod throw) is `none`. -/
def extractedTaskParse (item : RawItem) : Option ExtractedTask :=
  match item.task_description, item.assignee, item.due_date with
  | some d, some a, some dd =>
    match item.priority with
    | none => some { task_description := d, assignee := a, due_date := dd, priority := "P3" }
    | some p =>
      if p ∈ priorityValues then
        some { task_description := d, assignee := a, due_date := dd, priority := p }
      else none
  | _, _, _ => none

/-- Embeds `POST /api/extract-tasks` validation step:
`tasks.map(parse-or-null).filter(Boolean)`. -/
def validateExtractedTasks (items : List RawItem) : List ExtractedTask :=
  items.filterMap extractedTaskParse

/-- Outcome of the `POST /api/extract-tasks` handler up to the model call:
either an early 400 rejection, or the OpenAI completion call is made with
the given transcript. -/
inductive ExtractOutcome where
  | badRequest (status : Nat) (error : String)
  | modelCalled (transcript : String)
deriving DecidableEq, Repr

/-- The transcript guard of `POST /api/extract-tasks`:
`if (!transcript || typeof transcript !== "string") return 400` — a missing
(or non-string, modelled as `none`) or empty transcript is rejected before
`openai.chat.completions.create` runs. -/
def extractTasksGuard (transcript : Option String) : ExtractOutcome :=
  match transcript with
  | none => .badRequest 400 "Transcript is required"
  | some t =>
    if t = "" then .badRequest 400 "Transcript is required"
    else .modelCalled t

/-- One day in JS `Date` milliseconds (`setDate(getDate() + 1)`). -/
def dayMs : Int := 86400000

/-- The due-date computation of the `POST /api/tasks` per-item loop:
`new Date(taskData.due_date)`, falling back to tomorrow when the result is
`NaN` (which includes a missing `due_date`). `parseDate` stands for the JS
date-string parser; `none` is `NaN`. -/
def computeDueDateUtc (parseDate : String → Option Int) (now : Int)
    (due_date : Option String) : Int :=
  match due_date with
  | some s =>
    match parseDate s with
    | some t => t
    | none => now + dayMs
  | none => now + dayMs

/-- Embeds `insertTaskSchema.parse` on the object built by the `POST /api/tasks`
loop: `description`, `assignee`, `dueDateOriginal` must be present strings
(`notNull` text columns); `priority` defaults to "P3" (column default);
`userId`, `dueDateUtc` and `completed` are always supplied by the handler. -/
def insertTaskParse (userId : Nat) (description assignee : Option String)
    (dueDateUtc : Int) (dueDateOriginal : Option String)
    (priority : Option String) (completed : Bool) : Option InsertTask :=
  match description, assignee, dueDateOriginal with
  | some d, some a, some o =>
    some { userId := userId, description := d, assignee := a,
           dueDateUtc := dueDateUtc, dueDateOriginal := o,
           priority := priority.getD "P3", completed := completed }
  | _, _, _ => none

/-- The body of the `POST /api/tasks` per-item loop up to
`storage.createTask`: compute the due date (with fallback), then validate;
`none` is the caught per-item error (the item is skipped). -/
def processBulkItem (parseDate : String → Option Int) (now : Int)
    (userId : Nat) (item : RawItem) : Option InsertTask :=
  let dueDateUtc := computeDueDateUtc parseDate now item.due_date
  insertTaskParse userId item.task_description item.assignee dueDateUtc
    item.due_date item.priority false

/-- The whole `POST /api/tasks` loop: each item is processed; on success
the task is created in storage and pushed onto `createdTasks`, on failure
the loop continues with the other items. Returns the response array and
the final store. -/
def bulkCreateTasks (parseDate : String → Option Int) (now : Int)
    (userId : Nat) (items : List RawItem) (s : StoreState) :
    List Task × StoreState :=
  items.foldl
    (fun acc item =>
      match processBulkItem parseDate now userId item with
      | some ins =>
        let created := memCreateTask now acc.2 ins
        (acc.1 ++ [created.1], created.2)
      | none => acc)
    ([], s)

def pad2 (n : Nat) : String :=
  if n < 10 then "0" ++ toString n else toString n

def pad3 (n : Nat) : String :=
  if n < 10 then "00" ++ toString n
  else if n < 100 then "0" ++ toString n
  else toString n

def padYear (y : Int) : String :=
  if y < 0 then "-" ++ toString (-y)
  else if y < 10 then "000" ++ toString y
  else if y < 100 then "00" ++ toString y
  else if y < 1000 then "0" ++ toString y
  else toString y

/-- Proleptic-Gregorian civil date from days since the Unix epoch
(the standard era-based algorithm, as used by JS `Date` UTC accessors). -/
def civilFromDays (day : Int) : Int × Nat × Nat :=
  let z := day + 719468
  let era : Int := (if 0 ≤ z then z else z - 146096) / 146097
  let doe : Nat := (z - era * 146097).toNat
  let yoe : Nat := (doe - doe / 1460 + doe / 36524 - doe / 146096) / 365
  let y : Int := (yoe : Int) + era * 400
  let doy : Nat := doe - (365 * yoe + yoe / 4 - yoe / 100)
  let mp : Nat := (5 * doy + 2) / 153
  let d : Nat := doy - (153 * mp + 2) / 5 + 1
  let m : Nat := if mp < 10 then mp + 3 else mp - 9
  (if m ≤ 2 then y + 1 else y, m, d)

/-- JS `Date.prototype.toISOString` over a millisecond timestamp: the UTC
calendar rendering `YYYY-MM-DDTHH:mm:ss.sssZ`. -/
def toISOString (ms : Int) : String :=
  let day : Int := Int.fdiv ms 86400000
  let rem : Nat := (ms - day * 86400000).toNat
  let c := civilFromDays day
  padYear c.1 ++ "-" ++ pad2 c.2.1 ++ "-" ++ pad2 c.2.2 ++ "T" ++
    pad2 (rem / 3600000) ++ ":" ++ pad2 ((rem / 60000) % 60) ++ ":" ++
    pad2 ((rem / 1000) % 60) ++ "." ++ pad3 (rem % 1000) ++ "Z"

/-- Embeds `convertUtcToLocal` (`routes.ts`): "For MVP, return ISO string" — the
`timezone` argument is accepted but unused. -/
def convertUtcToLocal (utcDate : Int) (timezone : String) : String :=
  toISOString utcDate

/-- The `GET /api/tasks` handler: fetch the caller's tasks and attach
`dueDateLocal := convertUtcToLocal(task.dueDateUtc, user.timezone)` to
each. -/
def getTasksWithLocalTime (s : StoreState) (userId : Nat) (timezone : String) :
    List (Task × String) :=
  (memGetTasksByUserId s userId).map
    (fun t => (t, convertUtcToLocal t.dueDateUtc timezone))

/-- Embeds `removeTask` in `task-review-modal.tsx`:
`tasks.filter((_, i) => i !== index)`. -/
def removeTask (tasks : List ExtractedTask) (index : Nat) : List ExtractedTask :=
  (tasks.enum.filter (fun p => !(p.1 == index))).map Prod.snd

/-- The blank candidate built by `addNewTask`. -/
def blankTask : ExtractedTask :=
  { task_description := "", assignee := "", due_date := "", priority := "P3" }

/-- Embeds `addNewTask` in `task-review-modal.tsx`: append one blank candidate. -/
def addNewTask (tasks : List ExtractedTask) : List ExtractedTask :=
  tasks ++ [blankTask]

/-- What `handleApproveAll` does: either the destructive validation toast
(no mutation invoked), or `approveTasksMutation.mutate(tasks)` with the
whole working set as payload. -/
inductive ApproveAction where
  | rejected (title description : String)
  | submitted (payload : List ExtractedTask)
deriving DecidableEq, Repr

/-- Embeds `handleApproveAll` in `task-review-modal.tsx`: an empty working set is
rejected with a toast and no request; otherwise the working set is
submitted as one bulk-create request. -/
def handleApproveAll (tasks : List ExtractedTask) : ApproveAction :=
  if tasks.length = 0 then
    .rejected "No tasks to approve" "Add at least one task before approving."
  else .submitted tasks

/-- The bulk-create requests an `ApproveAction` causes: none when
rejected, exactly one (with the working set) when submitted. -/
def requestsSent (a : ApproveAction) : List (List ExtractedTask) :=
  match a with
  | .rejected _ _ => []
  | .submitted payload => [payload]

/-- The candidate payload a client submit produces on the wire: the JSON
body `{ tasks }` the server's bulk-create loop receives. -/
def toRawItem (t : ExtractedTask) : RawItem :=
  { task_description := some t.task_description, assignee := some t.assignee,
    due_date := some t.due_date, priority := some t.priority }

/-! ### Helper lemmas -/

theorem head?_filter_eq_find? {α : Type} (p : α → Bool) :
    ∀ l : List α, (l.filter p).head? = l.find? p
  | [] => rfl
  | a :: l => by
    cases hp : p a
    · simp [List.filter_cons, List.find?_cons, hp, head?_filter_eq_find? p l]
    · simp [List.filter_cons, List.find?_cons, hp]

theorem applyUpdates_userId (t : Task) (u : UpdateTask) :
    (applyUpdates t u).userId = t.userId := rfl

theorem applyUpdates_id (t : Task) (u : UpdateTask) :
    (applyUpdates t u).id = t.id := rfl

/-- The result of `MemStorage.updateTask` as a function of the first row
with the requested id. -/
theorem memUpdateTask_fst (s : StoreState) (id u : Nat) (upd : UpdateTask) :
    (memUpdateTask s id u upd).1 =
      match s.rows.find? (fun t => t.id == id) with
      | none => none
      | some t => if t.userId = u then some (applyUpdates t upd) else none := by
  unfold memUpdateTask
  cases s.rows.find? (fun t => t.id == id) with
  | none => rfl
  | some t =>
    by_cases h : t.userId = u <;> simp [h]

/-- The result of `DatabaseStorage.updateTask` as a function of the first
row with the requested id. -/
theorem dbUpdateTask_fst (s : StoreState) (id u : Nat) (upd : UpdateTask) :
    (dbUpdateTask s id u upd).1 =
      match s.rows.find? (fun t => t.id == id) with
      | none => none
      | some t => if t.userId = u then some (applyUpdates t upd) else none := by
  unfold dbUpdateTask
  rw [List.head?_map, head?_filter_eq_find?]
  cases s.rows.find? (fun t => t.id == id) with
  | none => rfl
  | some t =>
    by_cases h : t.userId = u <;>
      simp [Option.map_some, applyUpdates_userId, h]

/-- The result of `MemStorage.deleteTask` as a function of the first row
with the requested id. -/
theorem memDeleteTask_fst (s : StoreState) (id u : Nat) :
    (memDeleteTask s id u).1 =
      match s.rows.find? (fun t => t.id == id) with
      | none => false
      | some t => t.userId == u := by
  unfold memDeleteTask
  cases s.rows.find? (fun t => t.id == id) with
  | none => rfl
  | some t =>
    by_cases h : t.userId = u <;> simp [h]

/-- The result of `DatabaseStorage.deleteTask` as a function of the first
row with the requested id. -/
theorem dbDeleteTask_fst (s : StoreState) (id u : Nat) :
    (dbDeleteTask s id u).1 =
      match s.rows.find? (fun t => t.id == id) with
      | none => false
      | some t => t.userId == u := by
  unfold dbDeleteTask
  simp only [head?_filter_eq_find?]
  cases s.rows.find? (fun t => t.id == id) with
  | none => rfl
  | some t => rfl

/-- If every row carrying the requested id is foreign-owned, the first such
row (when any) is foreign-owned. -/
theorem find?_userId_ne {s : StoreState} {id caller : Nat}
    (h : ∀ t ∈ s.rows, t.id = id → t.userId ≠ caller) :
    ∀ t, s.rows.find? (fun t => t.id == id) = some t → t.userId ≠ caller := by
  intro t hf
  have hmem : t ∈ s.rows := List.mem_of_find?_eq_some hf
  have hid : t.id = id := by simpa using List.find?_some hf
  exact h t hmem hid

/-! ### Demo fixtures -/

def demoTask : Task :=
  { id := 1, userId := 1, description := "write report", assignee := "John",
    dueDateUtc := 0, dueDateOriginal := "Friday", priority := "P3",
    completed := false, createdAt := 0 }

def demoStore : StoreState := { rows := [demoTask], nextId := 2 }

def demoUpdates : UpdateTask := { completed := some true }

/-! ### Claims -/

/-- Claim C1: for every stored task and caller whose user id differs from
the task's owner, `updateTask` and `deleteTask` leave the stored record
unchanged. This holds for `MemStorage` but the code of
`DatabaseStorage` violates it: at the failing input — a store holding the
single task `demoTask` (id 1, owner 1) and caller 2 — `MemStorage` leaves
the store intact, while `DatabaseStorage.updateTask` persists the update
to the foreign-owned row and `DatabaseStorage.deleteTask` removes it
(each while returning the not-found value). -/
theorem owner_isolation_mem_holds_db_violates :
    memUpdateTask demoStore 1 2 demoUpdates = (none, demoStore) ∧
    memDeleteTask demoStore 1 2 = (false, demoStore) ∧
    (dbUpdateTask demoStore 1 2 demoUpdates).1 = none ∧
    (dbUpdateTask demoStore 1 2 demoUpdates).2.rows =
      [{ demoTask with completed := true }] ∧
    ({ demoTask with completed := true } : Task) ≠ demoTask ∧
    (dbDeleteTask demoStore 1 2).1 = false ∧
    (dbDeleteTask demoStore 1 2).2.rows = [] := by
  decide

/-- Claim C2: an `updateTask`/`deleteTask` call for which every stored row
with the requested id is owned by someone other than the caller (which
covers both a foreign-owned task and a missing id) returns the not-found
result in both implementations — `updateTask` yields `undefined`,
`deleteTask` yields `false` — and the HTTP handlers map both to 404, so a
non-owner cannot distinguish a foreign task from a missing one by the
response. -/
theorem ownership_mismatch_indistinguishable_from_not_found
    (s : StoreState) (id caller : Nat) (upd : UpdateTask)
    (h : ∀ t ∈ s.rows, t.id = id → t.userId ≠ caller) :
    (memUpdateTask s id caller upd).1 = none ∧
    (dbUpdateTask s id caller upd).1 = none ∧
    (memDeleteTask s id caller).1 = false ∧
    (dbDeleteTask s id caller).1 = false ∧
    putTaskStatus (memUpdateTask s id caller upd).1 = 404 ∧
    putTaskStatus (dbUpdateTask s id caller upd).1 = 404 ∧
    deleteTaskStatus (memDeleteTask s id caller).1 = 404 ∧
    deleteTaskStatus (dbDeleteTask s id caller).1 = 404 := by
  have key := find?_userId_ne h
  have hupd :
      (match s.rows.find? (fun t => t.id == id) with
        | none => (none : Option Task)
        | some t => if t.userId = caller then some (applyUpdates t upd) else none) = none := by
    cases hf : s.rows.find? (fun t => t.id == id) with
    | none => rfl
    | some t => simp [key t hf]
  have hdel :
      (match s.rows.find? (fun t => t.id == id) with
        | none => false
        | some t => t.userId == caller) = false := by
    cases hf : s.rows.find? (fun t => t.id == id) with
    | none => rfl
    | some t => simp [key t hf]
  refine ⟨?_, ?_, ?_, ?_, ?_, ?_, ?_, ?_⟩ <;>
    simp [memUpdateTask_fst, dbUpdateTask_fst, memDeleteTask_fst,
      dbDeleteTask_fst, putTaskStatus, deleteTaskStatus, hupd, hdel]

/-- Witness for C2 at a concrete input: the store holds task id 1 owned by
user 1; caller 2 updates and deletes id 1 (foreign-owned), and also id 7
(absent); all calls yield the not-found results and 404. -/
theorem ownership_mismatch_indistinguishable_from_not_found_witness :
    (memUpdateTask demoStore 1 2 demoUpdates).1 = none ∧
    (dbUpdateTask demoStore 1 2 demoUpdates).1 = none ∧
    (memDeleteTask demoStore 1 2).1 = false ∧
    (dbDeleteTask demoStore 1 2).1 = false ∧
    putTaskStatus (memUpdateTask demoStore 1 2 demoUpdates).1 = 404 ∧
    putTaskStatus (dbUpdateTask demoStore 1 2 demoUpdates).1 = 404 ∧
    deleteTaskStatus (memDeleteTask demoStore 1 2).1 = 404 ∧
    deleteTaskStatus (dbDeleteTask demoStore 1 2).1 = 404 :=
  ownership_mismatch_indistinguishable_from_not_found demoStore 1 2 demoUpdates
    (by decide)

def demoRawItem : RawItem :=
  { task_description := some "write report", assignee := some "John",
    due_date := some "next Friday at noon", priority := some "P2" }

/-- Claim C3: in the bulk-create loop, a candidate whose `due_date` text
fails to parse is not rejected — the resulting insert carries the fallback
absolute due date `now + 1 day` — and, parse success or failure, the
persisted `dueDateOriginal` is exactly the submitted `due_date` text. -/
theorem due_date_fallback_preserves_original_text
    (parseDate : String → Option Int) (now : Int) (uid : Nat) (item : RawItem)
    (d a orig : String)
    (hd : item.task_description = some d) (ha : item.assignee = some a)
    (hdue : item.due_date = some orig) :
    ∃ ins, processBulkItem parseDate now uid item = some ins ∧
      ins.dueDateOriginal = orig ∧
      (parseDate orig = none → ins.dueDateUtc = now + dayMs) ∧
      (∀ t, parseDate orig = some t → ins.dueDateUtc = t) ∧
      (∀ st, (memCreateTask now st ins).1.dueDateOriginal = orig ∧
             (memCreateTask now st ins).1.dueDateUtc = ins.dueDateUtc) := by
  refine ⟨{ userId := uid, description := d, assignee := a,
            dueDateUtc := computeDueDateUtc parseDate now item.due_date,
            dueDateOriginal := orig, priority := item.priority.getD "P3",
            completed := false }, ?_, rfl, ?_, ?_, ?_⟩
  · simp [processBulkItem, insertTaskParse, hd, ha, hdue]
  · intro hp
    simp [computeDueDateUtc, hdue, hp]
  · intro t hp
    simp [computeDueDateUtc, hdue, hp]
  · intro st
    exact ⟨rfl, rfl⟩

/-- Witness for C3: a concrete candidate whose due-date phrase no parser
accepts (`parseDate` rejects everything) yields an insert with the
fallback due date `0 + 86400000` and the original text preserved. -/
theorem due_date_fallback_preserves_original_text_witness :
    ∃ ins, processBulkItem (fun _ => none) 0 1 demoRawItem = some ins ∧
      ins.dueDateOriginal = "next Friday at noon" ∧
      ((fun (_ : String) => (none : Option Int)) "next Friday at noon" = none →
        ins.dueDateUtc = 0 + dayMs) ∧
      (∀ t, (fun (_ : String) => (none : Option Int)) "next Friday at noon" = some t →
        ins.dueDateUtc = t) ∧
      (∀ st, (memCreateTask 0 st ins).1.dueDateOriginal = "next Friday at noon" ∧
             (memCreateTask 0 st ins).1.dueDateUtc = ins.dueDateUtc) :=
  due_date_fallback_preserves_original_text (fun _ => none) 0 1 demoRawItem
    "write report" "John" "next Friday at noon" rfl rfl rfl

def demoBadPriorityItem : RawItem :=
  { task_description := some "ship build", assignee := some "Ana",
    due_date := some "Friday", priority := some "P5" }

def demoNoPriorityItem : RawItem :=
  { task_description := some "ship build", assignee := some "Ana",
    due_date := some "Friday", priority := none }

/-- Claim C4: an extracted element whose `priority` is present but outside
{P1,P2,P3,P4} fails `extractedTaskSchema` validation and contributes
nothing to the extraction result set, while an element missing `priority`
(with the other required fields present) is kept with priority defaulted
to "P3". -/
theorem invalid_priority_dropped_missing_priority_defaulted
    (item : RawItem) (p : String) :
    (item.priority = some p → p ∉ priorityValues →
      extractedTaskParse item = none ∧
      ∀ xs ys, validateExtractedTasks (xs ++ item :: ys) =
        validateExtractedTasks (xs ++ ys)) ∧
    (∀ d a dd, item.priority = none → item.task_description = some d →
      item.assignee = some a → item.due_date = some dd →
      extractedTaskParse item =
        some { task_description := d, assignee := a, due_date := dd,
               priority := "P3" }) := by
  constructor
  · intro hp hmem
    have hnone : extractedTaskParse item = none := by
      unfold extractedTaskParse
      cases hd : item.task_description <;> cases ha : item.assignee <;>
        cases hdd : item.due_date <;> simp [hp, hmem]
    refine ⟨hnone, fun xs ys => ?_⟩
    simp [validateExtractedTasks, List.filterMap_append, List.filterMap_cons,
      hnone]
  · intro d a dd hp hd ha hdd
    simp [extractedTaskParse, hd, ha, hdd, hp]

/-- Witness for C4: `{priority: "P5"}` is dropped (and removing it from a
batch does not change the validated result), while the same record without
a priority is kept with "P3". -/
theorem invalid_priority_dropped_missing_priority_defaulted_witness :
    extractedTaskParse demoBadPriorityItem = none ∧
    validateExtractedTasks ([] ++ demoBadPriorityItem :: [demoNoPriorityItem]) =
      validateExtractedTasks ([] ++ [demoNoPriorityItem]) ∧
    extractedTaskParse demoNoPriorityItem =
      some { task_description := "ship build", assignee := "Ana",
             due_date := "Friday", priority := "P3" } := by
  have h1 :=
    (invalid_priority_dropped_missing_priority_defaulted demoBadPriorityItem "P5").1
      rfl (by decide)
  have h2 :=
    (invalid_priority_dropped_missing_priority_defaulted demoNoPriorityItem "P5").2
      "ship build" "Ana" "Friday" rfl rfl rfl rfl
  exact ⟨h1.1, h1.2 [] [demoNoPriorityItem], h2⟩

/-- Claim C5: `handleApproveAll` on an empty working set produces the
destructive validation toast and never invokes the bulk-create mutation:
no request is sent, so any server store is left exactly as it was (and the
working set itself is not modified by the handler). -/
theorem approve_all_empty_rejected_no_request :
    handleApproveAll [] =
      .rejected "No tasks to approve" "Add at least one task before approving." ∧
    requestsSent (handleApproveAll []) = [] ∧
    ∀ (parseDate : String → Option Int) (now : Int) (uid : Nat) (s : StoreState),
      (requestsSent (handleApproveAll [])).foldl
        (fun st req => (bulkCreateTasks parseDate now uid (req.map toRawItem) st).2)
        s = s := by
  refine ⟨rfl, rfl, ?_⟩
  intro parseDate now uid s
  rfl

theorem filter_enumFrom_keep {α : Type} (m : Nat) :
    ∀ (l : List α) (n : Nat), m < n →
      ((l.enumFrom n).filter (fun p => !(p.1 == m))).map Prod.snd = l := by
  intro l
  induction l with
  | nil => intro n _; rfl
  | cons a l ih =>
    intro n h
    have hne : (n == m) = false := by
      simp only [beq_eq_false_iff_ne]
      omega
    simp [List.enumFrom, List.filter_cons, hne, ih (n + 1) (by omega)]

theorem filter_enumFrom_eraseIdx {α : Type} :
    ∀ (l : List α) (i n : Nat),
      ((l.enumFrom n).filter (fun p => !(p.1 == n + i))).map Prod.snd =
        l.eraseIdx i := by
  intro l
  induction l with
  | nil => intro i n; rfl
  | cons a l ih =>
    intro i n
    cases i with
    | zero =>
      have heq : (n == n + 0) = true := by simp
      simp only [List.enumFrom, List.filter_cons, heq, Bool.not_true,
        List.eraseIdx_cons_zero]
      exact filter_enumFrom_keep n l (n + 1) (by omega)
    | succ i' =>
      have hne : (n == (n + 1) + i') = false := by
        simp only [beq_eq_false_iff_ne]
        omega
      have hsh : n + (i' + 1) = (n + 1) + i' := by omega
      rw [hsh]
      simp only [List.enumFrom, List.filter_cons]
      simp [hne, ih i' (n + 1)]

/-- The function `removeTask` is exactly `eraseIdx`: it deletes the element at the
given index (and is the identity when the index is out of range). -/
theorem removeTask_eq_eraseIdx (ws : List ExtractedTask) (i : Nat) :
    removeTask ws i = ws.eraseIdx i := by
  have h := filter_enumFrom_eraseIdx ws i 0
  simpa [removeTask, List.enum] using h

/-- Claim C6: `remove(i)` followed by `append()` yields a working set whose
last element is the blank candidate
`{task_description: "", assignee: "", due_date: "", priority: P3}` and
whose remaining elements are the elements of `ws` minus the one at index
`i`, in their original relative order (`List.eraseIdx`). -/
theorem remove_then_append_blank_last_order_kept
    (ws : List ExtractedTask) (i : Nat) :
    addNewTask (removeTask ws i) = ws.eraseIdx i ++ [blankTask] ∧
    (addNewTask (removeTask ws i)).getLast? = some blankTask ∧
    (addNewTask (removeTask ws i)).dropLast = ws.eraseIdx i := by
  have h := removeTask_eq_eraseIdx ws i
  refine ⟨by rw [addNewTask, h], ?_, ?_⟩
  · rw [addNewTask, h]
    exact List.getLast?_concat _
  · rw [addNewTask, h]
    exact List.dropLast_concat

/-- Sequential creation of a list of validated inserts: what the
bulk-create loop does to the items that survive validation. -/
def mkCreated (now : Int) : StoreState → List InsertTask → List Task × StoreState
  | s, [] => ([], s)
  | s, ins :: rest =>
    let c := memCreateTask now s ins
    let r := mkCreated now c.2 rest
    (c.1 :: r.1, r.2)

theorem mkCreated_fst_length (now : Int) :
    ∀ (s : StoreState) (l : List InsertTask),
      (mkCreated now s l).1.length = l.length := by
  intro s l
  induction l generalizing s with
  | nil => rfl
  | cons ins rest ih => simp [mkCreated, ih]

theorem bulkCreateTasks_foldl (parseDate : String → Option Int) (now : Int)
    (uid : Nat) :
    ∀ (items : List RawItem) (acc : List Task) (s : StoreState),
      items.foldl
        (fun acc item =>
          match processBulkItem parseDate now uid item with
          | some ins =>
            let created := memCreateTask now acc.2 ins
            (acc.1 ++ [created.1], created.2)
          | none => acc)
        (acc, s) =
      (acc ++ (mkCreated now s (items.filterMap (processBulkItem parseDate now uid))).1,
       (mkCreated now s (items.filterMap (processBulkItem parseDate now uid))).2) := by
  intro items
  induction items with
  | nil => intro acc s; simp [mkCreated]
  | cons item rest ih =>
    intro acc s
    cases hp : processBulkItem parseDate now uid item with
    | none => simp [List.foldl_cons, hp, List.filterMap_cons, ih]
    | some ins =>
      simp only [List.foldl_cons, hp, List.filterMap_cons]
      rw [ih]
      simp [mkCreated]

def demoMissingAssigneeItem : RawItem :=
  { task_description := some "send invites", assignee := none,
    due_date := some "Tuesday", priority := some "P1" }

def demoBulkTask : Task :=
  { id := 1, userId := 7, description := "write report", assignee := "John",
    dueDateUtc := 86400000, dueDateOriginal := "next Friday at noon",
    priority := "P2", completed := false, createdAt := 0 }

/-- Claim C7: the bulk-create loop persists exactly the well-formed items
(in order) and swallows per-item failures: the response/state pair equals
the sequential creation of the items surviving validation, the response
length equals the surviving count, and — the spec's scenario — a request
mixing an item missing its assignee with a well-formed item yields a
response holding exactly the one task created from the latter. -/
theorem bulk_create_skips_malformed_keeps_wellformed
    (parseDate : String → Option Int) (now : Int) (uid : Nat)
    (items : List RawItem) (s : StoreState) :
    bulkCreateTasks parseDate now uid items s =
      mkCreated now s (items.filterMap (processBulkItem parseDate now uid)) ∧
    (bulkCreateTasks parseDate now uid items s).1.length =
      (items.filterMap (processBulkItem parseDate now uid)).length ∧
    bulkCreateTasks (fun _ => none) 0 7 [demoMissingAssigneeItem, demoRawItem]
        emptyStore =
      ([demoBulkTask], { rows := [demoBulkTask], nextId := 2 }) := by
  have h := bulkCreateTasks_foldl parseDate now uid items [] s
  have hmain : bulkCreateTasks parseDate now uid items s =
      mkCreated now s (items.filterMap (processBulkItem parseDate now uid)) := by
    rw [bulkCreateTasks, h]
    simp
  refine ⟨hmain, ?_, by decide⟩
  rw [hmain, mkCreated_fst_length]

/-- Claim C8: an extraction request whose transcript is missing (or not a
string) or empty is rejected with status 400 and the message "Transcript
is required" before the model call — the guard never reaches the
`modelCalled` branch for such input. -/
theorem empty_transcript_rejected_before_model_call
    (transcript : Option String)
    (h : transcript = none ∨ transcript = some "") :
    extractTasksGuard transcript = .badRequest 400 "Transcript is required" ∧
    ∀ t, extractTasksGuard transcript ≠ .modelCalled t := by
  have hg : extractTasksGuard transcript = .badRequest 400 "Transcript is required" := by
    rcases h with h | h <;> simp [h, extractTasksGuard]
  refine ⟨hg, fun t ht => ?_⟩
  rw [hg] at ht
  exact ExtractOutcome.noConfusion ht

/-- Witness for C8 at the concrete inputs: both the missing transcript and
the empty-string transcript are rejected with 400. -/
theorem empty_transcript_rejected_before_model_call_witness :
    (extractTasksGuard none = .badRequest 400 "Transcript is required" ∧
      ∀ t, extractTasksGuard none ≠ .modelCalled t) ∧
    (extractTasksGuard (some "") = .badRequest 400 "Transcript is required" ∧
      ∀ t, extractTasksGuard (some "") ≠ .modelCalled t) :=
  ⟨empty_transcript_rejected_before_model_call none (Or.inl rfl),
   empty_transcript_rejected_before_model_call (some "") (Or.inr rfl)⟩

/-- Counterexample to claim C9: the stored timestamp 0 is rendered as the
same string "1970-01-01T00:00:00.000Z" for a caller in timezone
"America/New_York" and a caller in timezone "UTC" — the rendering does not
reflect the caller's timezone (a New York local rendering of that instant
would fall on 1969-12-31). -/
theorem due_date_local_ignores_timezone_counterexample :
    ("America/New_York" : String) ≠ "UTC" ∧
    getTasksWithLocalTime demoStore 1 "America/New_York" =
      [(demoTask, "1970-01-01T00:00:00.000Z")] ∧
    getTasksWithLocalTime demoStore 1 "UTC" =
      [(demoTask, "1970-01-01T00:00:00.000Z")] := by
  decide

/-- Claim C9 as amended: the locally-rendered due-date string attached by
the task-list endpoint is derived from the stored UTC timestamp only —
`convertUtcToLocal` ignores the timezone argument and returns the UTC
ISO-8601 string, so callers with different timezones receive identical
renderings. -/
theorem due_date_local_is_utc_iso_for_all_timezones
    (s : StoreState) (uid : Nat) (tz tz' : String) :
    getTasksWithLocalTime s uid tz =
      (memGetTasksByUserId s uid).map (fun t => (t, toISOString t.dueDateUtc)) ∧
    getTasksWithLocalTime s uid tz = getTasksWithLocalTime s uid tz' :=
  ⟨rfl, rfl⟩

def demoInsert : InsertTask :=
  { userId := 1, description := "write report", assignee := "John",
    dueDateUtc := 0, dueDateOriginal := "Friday", priority := "P3",
    completed := false }

/-- Counterexample to claim C10: the call sequence `createTask` (by user
1), `deleteTask(1, caller 2)`, `getTasksByUserId(1)` from the empty store
yields the created task under `MemStorage` but the empty list under
`DatabaseStorage` — the two implementations are not observationally
equivalent. -/
theorem storages_not_observationally_equivalent :
    memCreateTask 0 emptyStore demoInsert = dbCreateTask 0 emptyStore demoInsert ∧
    (memDeleteTask (memCreateTask 0 emptyStore demoInsert).2 1 2).1 =
      (dbDeleteTask (dbCreateTask 0 emptyStore demoInsert).2 1 2).1 ∧
    memGetTasksByUserId (memDeleteTask (memCreateTask 0 emptyStore demoInsert).2 1 2).2 1 ≠
      dbGetTasksByUserId (dbDeleteTask (dbCreateTask 0 emptyStore demoInsert).2 1 2).2 1 := by
  decide

/-- Claim C10 as amended: every single `getTasksByUserId`, `createTask`,
`updateTask` or `deleteTask` call returns the same result in both
implementations from the same state, but the implementations are not
observationally equivalent: an `updateTask`/`deleteTask` call whose caller
differs from the stored owner leaves the `MemStorage` state unchanged,
while `DatabaseStorage` removes the row on delete (so the stores diverge
and later reads differ). -/
theorem storages_agree_per_call_but_diverge_on_foreign_mutation :
    (∀ s uid, memGetTasksByUserId s uid = dbGetTasksByUserId s uid) ∧
    (∀ now s ins, memCreateTask now s ins = dbCreateTask now s ins) ∧
    (∀ s id u upd, (memUpdateTask s id u upd).1 = (dbUpdateTask s id u upd).1) ∧
    (∀ s id u, (memDeleteTask s id u).1 = (dbDeleteTask s id u).1) ∧
    (∀ s id u upd t, s.rows.find? (fun r => r.id == id) = some t →
      t.userId ≠ u →
      (memUpdateTask s id u upd).2 = s ∧
      (memDeleteTask s id u).2 = s ∧
      t ∉ (dbDeleteTask s id u).2.rows) := by
  refine ⟨fun s uid => rfl, fun now s ins => rfl, ?_, ?_, ?_⟩
  · intro s id u upd
    rw [memUpdateTask_fst, dbUpdateTask_fst]
  · intro s id u
    rw [memDeleteTask_fst, dbDeleteTask_fst]
  · intro s id u upd t hf hne
    have hid : t.id = id := by simpa using List.find?_some hf
    refine ⟨?_, ?_, ?_⟩
    · unfold memUpdateTask
      rw [hf]
      simp [hne]
    · unfold memDeleteTask
      rw [hf]
      simp [hne]
    · intro hmem
      have hp := (List.mem_filter.mp hmem).2
      simp [hid] at hp

/-- Witness for C10's amended claim at a concrete input: on the store
holding task id 1 owned by user 1, caller 2's update and delete leave the
`MemStorage` state untouched, while `DatabaseStorage`'s delete removes the
task from its rows. -/
theorem storages_agree_per_call_but_diverge_on_foreign_mutation_witness :
    (memUpdateTask demoStore 1 2 demoUpdates).2 = demoStore ∧
    (memDeleteTask demoStore 1 2).2 = demoStore ∧
    demoTask ∉ (dbDeleteTask demoStore 1 2).2.rows :=
  storages_agree_per_call_but_diverge_on_foreign_mutation.2.2.2.2
    demoStore 1 2 demoUpdates demoTask (by decide) (by decide)

end MMTC
